import Mathlib

/-!
Verification of the batch TIFF-to-JPEG converter
(src/batch_image_converter.py) against its specification.

The development shallowly embeds the program:

* pixel level: decoded images (PIL-style mode string, size, pixel rows,
  optional palette) and the color-mode normalization performed before JPEG
  encoding (lines 62-71 of the source);
* batch level: directory entries, the four-pattern TIFF discovery
  (lines 39-43), the per-file conversion loop with its try/except error
  isolation (lines 54-90), the fail-fast check on a missing input directory
  (lines 24-27), and the argument-parsing quality validation in main
  (lines 104-105).

Machine integers are Nat; filenames are lists of characters; the filesystem
is explicit state threaded through the conversion function.
-/

namespace BatchImageConverter

/-! ## Pixel-level model -/

/-- Decoded in-memory image, as produced by PIL.Image.open: a color-mode
string (such as "RGB", "RGBA", "LA", "P", "L"), a size, the pixel buffer
(each pixel a list of channel values, one per band of the mode), and for
palette-indexed ("P") images the palette, whose entries are RGBA
quadruples (the alpha entry carrying the palette transparency, 255 when
the palette has none). -/
structure PILImage where
  mode : String
  width : Nat
  height : Nat
  pixels : List (List Nat)
  palette : List (List Nat)
deriving DecidableEq, Repr

/-- Number of channel bands of a color mode. -/
def modeChannels : String → Nat
  | "RGB" => 3
  | "RGBA" => 4
  | "LA" => 2
  | "L" => 1
  | "P" => 1
  | "CMYK" => 4
  | _ => 3

/-- Well-formedness of a decoded image: every pixel has exactly the
number of channels of its mode, each channel value is an 8-bit value,
and palette entries are RGBA quadruples of 8-bit values. -/
def wfPixels (img : PILImage) : Prop :=
  (∀ p ∈ img.pixels, p.length = modeChannels img.mode ∧ ∀ c ∈ p, c ≤ 255) ∧
  (∀ pe ∈ img.palette, pe.length = 4 ∧ ∀ c ∈ pe, c ≤ 255)

instance (img : PILImage) : Decidable (wfPixels img) := by
  unfold wfPixels; infer_instance

/-- Modelled from the spec: PIL alpha compositing over a white background
(the library code behind rgb_img.paste at line 68 is not under src/).
The spec prescribes standard alpha compositing, result = src*alpha +
white*(1-alpha), here in 8-bit fixed point with alpha = a/255. -/
def blendOverWhite (a s : Nat) : Nat :=
  (s * a + 255 * (255 - a)) / 255

/-- Modelled from the spec: the mask argument of the paste call,
img.split()[-1] at line 68, is the last band of each pixel. -/
def alphaChannel (p : List Nat) : Nat := p.getLastD 0

/-- Modelled from the spec: when a pixel is pasted onto an RGB canvas,
PIL first converts it to RGB: an RGBA pixel drops its alpha band, an LA
pixel replicates its luminance band over the three RGB channels. -/
def srcRGB (mode : String) (p : List Nat) : List Nat :=
  if mode = "LA" then [p.headD 0, p.headD 0, p.headD 0]
  else p.take 3

/-- One pixel of the white-background composite: each RGB channel of the
source pixel blended over white with the pixel's alpha as mask. -/
def compositedPixel (mode : String) (p : List Nat) : List Nat :=
  (srcRGB mode p).map (fun s => blendOverWhite (alphaChannel p) s)

/-- Lines 65 and 68 of the source: a new RGB image of the same size
filled with white (255,255,255), with the source image pasted onto it;
the alpha band is used as the paste mask exactly when the (possibly
already palette-expanded) source mode is RGBA or LA, else no mask is
used and the pasted pixels simply replace the white background. -/
def pasteWhite (img : PILImage) : PILImage :=
  { mode := "RGB", width := img.width, height := img.height,
    pixels := img.pixels.map (fun p =>
      if img.mode = "RGBA" ∨ img.mode = "LA" then compositedPixel img.mode p
      else srcRGB img.mode p),
    palette := [] }

/-- Modelled from the spec: PIL convert("RGBA") on a palette-indexed
image (line 67 of the source calls library code not under src/) looks
each pixel index up in the RGBA palette; the spec describes it as
expanding to an alpha-capable representation with the transparency
derived from the palette. Out-of-range indices yield opaque black. -/
def convertPtoRGBA (img : PILImage) : PILImage :=
  { img with
    mode := "RGBA",
    pixels := img.pixels.map (fun p => img.palette.getD (p.headD 0) [0, 0, 0, 255]) }

/-- Modelled from the spec: PIL convert("RGB") (line 71 calls library
code not under src/): conversion to RGB via the standard transform of
the source mode; for plain grayscale "L" the standard transform
replicates the luminance channel over R, G and B. Transforms for the
remaining source modes are represented schematically by truncation or
zero-padding to three channels; no theorem relies on their values, only
on the resulting mode. -/
def toRGBPixel (mode : String) (p : List Nat) : List Nat :=
  match mode, p with
  | "L", [l] => [l, l, l]
  | _, q => (q ++ [0, 0, 0]).take 3

/-- Result of img.convert("RGB") at line 71: an RGB image of the same
size with every pixel put through the mode's transform. -/
def convertToRGB (img : PILImage) : PILImage :=
  { mode := "RGB", width := img.width, height := img.height,
    pixels := img.pixels.map (toRGBPixel img.mode), palette := [] }

/-- Line 66-67 of the source: inside the alpha branch, a
palette-indexed image is first expanded to RGBA; other modes pass
through unchanged. -/
def alphaSource (img : PILImage) : PILImage :=
  if img.mode = "P" then convertPtoRGBA img else img

/-- Lines 62-71 of the source, the color-mode normalization before JPEG
encoding: modes RGBA, LA and P are composited onto a white background
(P after expansion to RGBA); any other mode that is not RGB is converted
to RGB; RGB passes through unchanged. -/
def normalizeMode (img : PILImage) : PILImage :=
  if img.mode = "RGBA" ∨ img.mode = "LA" ∨ img.mode = "P" then
    pasteWhite (alphaSource img)
  else if img.mode ≠ "RGB" then convertToRGB img
  else img

/-! ## Batch-level model -/

/-- Encoded JPEG output, abstractly: the normalized image together with
the encoding parameters passed to img.save at lines 77-83 (quality,
optimized Huffman tables, progressive scan layout). -/
structure JpegFile where
  image : PILImage
  quality : Int
  optimize : Bool
  progressive : Bool
deriving DecidableEq, Repr

/-- Line 77-83 of the source: the save call encodes the normalized image
as JPEG with the requested quality, optimize=True and progressive=True. -/
def encodeJPEG (img : PILImage) (quality : Int) : JpegFile :=
  { image := img, quality := quality, optimize := true, progressive := true }

/-- One file directly inside the input directory. The name is its base
name (a list of characters). decodesTo records what Image.open yields
for it: some decoded image, or none when opening/decoding raises
(corrupt or unreadable file). saveOk records whether the JPEG encode and
write of this file's output succeeds in the environment (false models a
write/encode failure such as a disk error). -/
structure Entry where
  name : List Char
  decodesTo : Option PILImage
  saveOk : Bool
deriving DecidableEq, Repr

/-- State of the filesystem as the program sees it: whether the input
directory exists, the files directly inside it, the files inside the
output directory (an association list from base name to JPEG content),
and whether the output directory exists. -/
structure FileSys where
  inputExists : Bool
  entries : List Entry
  outFiles : List (List Char × JpegFile)
  outDirExists : Bool
deriving DecidableEq, Repr

/-- Line 39 of the source: the four recognized TIFF extensions, in their
fixed order. -/
def tiffExtensions : List (List Char) :=
  [".tif".data, ".tiff".data, ".TIF".data, ".TIFF".data]

/-- Line 43 of the source: input_path.glob of the pattern star-then-ext.
For such a pattern, fnmatch translation matches exactly the names whose
characters end with the extension (case-sensitively, POSIX semantics);
glob does not recurse into subdirectories. -/
def globTiff (entries : List Entry) (ext : List Char) : List Entry :=
  entries.filter (fun e => decide (ext <:+ e.name))

/-- Lines 40-43 of the source: the discovery loop, extending an
initially empty list with the glob results of each extension pattern in
the fixed order. -/
def discover (entries : List Entry) : List Entry :=
  tiffExtensions.foldl (fun acc ext => acc ++ globTiff entries ext) []

/-- Index of the last dot in a name, if any. -/
def lastDotIdx (n : List Char) : Option Nat :=
  ((List.range n.length).filter (fun i => n.getD i ' ' = '.')).getLast?

/-- pathlib PurePath.stem, used at line 74: the base name without its
suffix, where the suffix starts at the last dot provided that dot is
neither the first nor the last character of the name. -/
def stem (n : List Char) : List Char :=
  match lastDotIdx n with
  | some i => if 0 < i ∧ i < n.length - 1 then n.take i else n
  | none => n

/-- Line 74 of the source: the destination base name, the source stem
followed by the .jpg extension. -/
def destName (n : List Char) : List Char := stem n ++ ".jpg".data

/-- Overwriting write of a file into the output directory (img.save at
line 77 overwrites an existing destination). -/
def writeOut (out : List (List Char × JpegFile)) (n : List Char) (f : JpegFile) :
    List (List Char × JpegFile) :=
  out.filter (fun kv => kv.1 ≠ n) ++ [(n, f)]

/-- Running tally of the conversion loop (lines 55-56) together with the
output directory contents it has produced so far. -/
structure BatchState where
  convertedCount : Nat
  errorCount : Nat
  outFiles : List (List Char × JpegFile)
deriving DecidableEq, Repr

/-- Whether the per-file pipeline of lines 59-86 completes for an entry:
the file decodes and its save succeeds. -/
def fileSucceeds (e : Entry) : Bool := e.decodesTo.isSome && e.saveOk

/-- Lines 58-90 of the source, one iteration of the conversion loop:
open the file, normalize its mode, save the JPEG to the destination name
and increment converted_count; any failure while opening, decoding or
saving is caught at the per-file boundary and increments error_count
instead. Modelled from the spec: when the save fails, no destination
file is left behind (PIL Image.save is library code not under src/; the
spec requires that a failed encode leave no destination file). -/
def processFile (quality : Int) (st : BatchState) (e : Entry) : BatchState :=
  match e.decodesTo with
  | none => { st with errorCount := st.errorCount + 1 }
  | some img =>
    if e.saveOk then
      { st with
        outFiles := writeOut st.outFiles (destName e.name) (encodeJPEG (normalizeMode img) quality),
        convertedCount := st.convertedCount + 1 }
    else
      { st with errorCount := st.errorCount + 1 }

/-- Outcome of a whole run of convert_tiff_to_jpeg: whether it returned
early on a missing input directory, the final tallies, and the resulting
filesystem. -/
structure Report where
  fatal : Bool
  convertedCount : Nat
  errorCount : Nat
  fs : FileSys
deriving DecidableEq, Repr

/-- Lines 54-90 of the source: the whole conversion loop, folded over
the discovered files in order, starting from zero tallies and the
current output-directory contents. -/
def batchRun (quality : Int) (fs : FileSys) : BatchState :=
  (discover fs.entries).foldl (processFile quality)
    { convertedCount := 0, errorCount := 0, outFiles := fs.outFiles }

/-- Lines 13-98 of the source, convert_tiff_to_jpeg: if the input
directory does not exist, return immediately without touching anything;
otherwise create the output directory, discover the TIFF files, return
with zero counts if none were found, and otherwise run the per-file
conversion loop over the discovered files in order. -/
def convert (fs : FileSys) (quality : Int) : Report :=
  if fs.inputExists = false then
    { fatal := true, convertedCount := 0, errorCount := 0, fs := fs }
  else if (discover fs.entries).isEmpty then
    { fatal := false, convertedCount := 0, errorCount := 0,
      fs := { fs with outDirExists := true } }
  else
    { fatal := false,
      convertedCount := (batchRun quality fs).convertedCount,
      errorCount := (batchRun quality fs).errorCount,
      fs := { fs with outDirExists := true,
                      outFiles := (batchRun quality fs).outFiles } }

/-- Lines 104-105 of the source: the quality option is parsed with
type=int and checked against choices=range(1,101). The argument is none
when the token is not an integer (int() raises, argparse reports a usage
error); an integer outside range(1,101) is likewise rejected. -/
def validateQuality (tok : Option Int) : Option Int :=
  match tok with
  | none => none
  | some q => if 1 ≤ q ∧ q < 101 then some q else none

/-- The effective quality of a run: default 95 when the option is
omitted (line 104), otherwise the validated value. -/
def qualityOrDefault (arg : Option (Option Int)) : Option Int :=
  match arg with
  | none => some 95
  | some tok => validateQuality tok

/-- Lines 100-109 of the source, main: parse the arguments first
(argparse exits with a usage error on an invalid quality, before any
filesystem access) and only then call convert_tiff_to_jpeg. -/
def mainRun (fs : FileSys) (qualityArg : Option (Option Int)) : Option Report :=
  match qualityOrDefault qualityArg with
  | none => none
  | some q => some (convert fs q)

/-! ## Example values used by the concrete witnesses -/

/-- Plain grayscale image without alpha, one 1-channel pixel. -/
def exGrayL : PILImage := ⟨"L", 1, 1, [[7]], []⟩

/-- Opaque RGB image, one pixel. -/
def exRGB : PILImage := ⟨"RGB", 1, 1, [[1, 2, 3]], []⟩

/-- RGBA image with one fully transparent and one fully opaque pixel. -/
def exRGBA : PILImage := ⟨"RGBA", 2, 1, [[10, 20, 30, 0], [40, 50, 60, 255]], []⟩

/-! ## General helper lemmas -/

lemma list_map_const {α β : Type} (f : α → β) (c : β) (h : ∀ x, f x = c) :
    ∀ l : List α, l.map f = List.replicate l.length c := by
  intro l
  induction l with
  | nil => rfl
  | cons a t ih => simp [h, ih, List.replicate]

lemma list_map_self {α : Type} (f : α → α) (h : ∀ x, f x = x) :
    ∀ l : List α, l.map f = l := by
  intro l
  induction l with
  | nil => rfl
  | cons a t ih => simp [h, ih]

/-! ## Color-mode normalization: claims C1 and C2 -/

/-- Claim C1, counterexample: the decoded image exGrayL is in plain
grayscale mode "L" without an alpha channel, yet the single-file
conversion does not use its pixel buffer as-is: the normalization
converts it to RGB, so a mode other than RGB-or-grayscale-as-is handling
is applied, refuting the claim that only modes other than RGB and plain
grayscale are converted. -/
theorem c1_counterexample :
    exGrayL.mode = "L" ∧ (normalizeMode exGrayL).mode = "RGB" ∧
      normalizeMode exGrayL ≠ exGrayL := by
  decide

/-- Claim C1 (amended): for every decoded source image that is not in an
alpha-or-palette mode (RGBA, LA, P), the pixel buffer is used as-is only
when the mode is exactly RGB; every other such mode — including plain
grayscale "L" — is converted to RGB before JPEG encoding. -/
theorem c1_only_rgb_as_is (img : PILImage)
    (hA : img.mode ≠ "RGBA") (hL : img.mode ≠ "LA") (hP : img.mode ≠ "P") :
    (img.mode = "RGB" → normalizeMode img = img) ∧
    (img.mode ≠ "RGB" →
      normalizeMode img = convertToRGB img ∧ (normalizeMode img).mode = "RGB") := by
  unfold normalizeMode
  refine ⟨fun h => ?_, fun h => ?_⟩
  · rw [if_neg (by simp [h]), if_neg (by simp [h])]
  · rw [if_neg (by simp [hA, hL, hP]), if_pos h]
    exact ⟨rfl, rfl⟩

/-- Witness for the amended claim C1 at concrete images: the RGB image
passes through unchanged, while the plain grayscale image is converted
to RGB. -/
theorem c1_witness :
    normalizeMode exRGB = exRGB ∧ normalizeMode exGrayL = convertToRGB exGrayL :=
  ⟨(c1_only_rgb_as_is exRGB (by decide) (by decide) (by decide)).1 rfl,
   ((c1_only_rgb_as_is exGrayL (by decide) (by decide) (by decide)).2 (by decide)).1⟩

lemma blendOverWhite_zero (s : Nat) : blendOverWhite 0 s = 255 := by
  unfold blendOverWhite
  norm_num

lemma blendOverWhite_full (s : Nat) : blendOverWhite 255 s = s := by
  unfold blendOverWhite
  norm_num

lemma alphaSource_mode (img : PILImage)
    (hm : img.mode = "RGBA" ∨ img.mode = "LA" ∨ img.mode = "P") :
    (alphaSource img).mode = "RGBA" ∨ (alphaSource img).mode = "LA" := by
  unfold alphaSource
  rcases hm with h | h | h
  · rw [if_neg (by rw [h]; decide)]; exact Or.inl h
  · rw [if_neg (by rw [h]; decide)]; exact Or.inr h
  · rw [if_pos h]; exact Or.inl rfl

lemma alphaSource_width (img : PILImage) : (alphaSource img).width = img.width := by
  unfold alphaSource
  split <;> rfl

lemma alphaSource_height (img : PILImage) : (alphaSource img).height = img.height := by
  unfold alphaSource
  split <;> rfl

lemma srcRGB_length (mode : String) (p : List Nat)
    (h : 3 ≤ p.length ∨ mode = "LA") : (srcRGB mode p).length = 3 := by
  unfold srcRGB
  by_cases hla : mode = "LA"
  · rw [if_pos hla]; rfl
  · rw [if_neg hla]
    rcases h with h3 | hLA
    · rw [List.length_take]; omega
    · exact absurd hLA hla

lemma alphaSource_pixel_len (img : PILImage) (hwf : wfPixels img)
    (hm : img.mode = "RGBA" ∨ img.mode = "LA" ∨ img.mode = "P") :
    ∀ p ∈ (alphaSource img).pixels, 3 ≤ p.length ∨ (alphaSource img).mode = "LA" := by
  intro p hp
  unfold alphaSource at hp ⊢
  by_cases hP : img.mode = "P"
  · rw [if_pos hP] at hp ⊢
    left
    simp only [convertPtoRGBA, List.mem_map] at hp
    obtain ⟨q, hq, rfl⟩ := hp
    by_cases hlt : q.headD 0 < img.palette.length
    · have hmem : img.palette.getD (q.headD 0) [0, 0, 0, 255] ∈ img.palette :=
        by rw [List.getD_eq_getElem _ _ hlt]; exact List.getElem_mem hlt
      have := (hwf.2 _ hmem).1
      omega
    · rw [List.getD_eq_default]
      · decide
      · omega
  · rw [if_neg hP] at hp ⊢
    rcases hm with h | h | h
    · left
      have hlen := (hwf.1 p hp).1
      rw [h] at hlen
      simp only [modeChannels] at hlen
      omega
    · exact Or.inr h
    · exact absurd h hP

/-- Claim C2: for every decoded image with an alpha channel (RGBA or LA)
or palette-indexed (P, first expanded to RGBA), the normalized buffer is
an opaque RGB image of the same size obtained by compositing each pixel
over white; a fully transparent pixel (alpha 0) becomes (255,255,255)
and a fully opaque pixel (alpha 255) keeps its source RGB color. -/
theorem c2_alpha_composited_over_white (img : PILImage)
    (hm : img.mode = "RGBA" ∨ img.mode = "LA" ∨ img.mode = "P")
    (hwf : wfPixels img) :
    (normalizeMode img).mode = "RGB" ∧
    (normalizeMode img).width = img.width ∧
    (normalizeMode img).height = img.height ∧
    (normalizeMode img).pixels
      = (alphaSource img).pixels.map (compositedPixel (alphaSource img).mode) ∧
    (∀ p ∈ (alphaSource img).pixels,
      (alphaChannel p = 0 →
        compositedPixel (alphaSource img).mode p = [255, 255, 255]) ∧
      (alphaChannel p = 255 →
        compositedPixel (alphaSource img).mode p = srcRGB (alphaSource img).mode p)) := by
  have hm2 := alphaSource_mode img hm
  have hnorm : normalizeMode img = pasteWhite (alphaSource img) := by
    unfold normalizeMode
    rw [if_pos hm]
  refine ⟨by rw [hnorm]; rfl, ?_, ?_, ?_, ?_⟩
  · rw [hnorm]
    exact alphaSource_width img
  · rw [hnorm]
    exact alphaSource_height img
  · rw [hnorm]
    unfold pasteWhite
    rcases hm2 with h2 | h2 <;> simp [h2]
  · intro p hp
    have hlen : (srcRGB (alphaSource img).mode p).length = 3 :=
      srcRGB_length _ _ (alphaSource_pixel_len img hwf hm p hp)
    constructor
    · intro ha
      unfold compositedPixel
      rw [ha, list_map_const _ 255 blendOverWhite_zero, hlen]
      rfl
    · intro ha
      unfold compositedPixel
      rw [ha, list_map_self _ blendOverWhite_full]

/-- Witness for claim C2 at a concrete RGBA image: the fully transparent
pixel becomes white, the fully opaque pixel keeps its color, and the
result is RGB of the same size. -/
theorem c2_witness :
    (normalizeMode exRGBA).mode = "RGB" ∧ (normalizeMode exRGBA).width = exRGBA.width ∧
      compositedPixel (alphaSource exRGBA).mode [10, 20, 30, 0] = [255, 255, 255] := by
  have h := c2_alpha_composited_over_white exRGBA (Or.inl rfl) (by decide)
  exact ⟨h.1, h.2.1, (h.2.2.2.2 [10, 20, 30, 0] (by decide)).1 (by decide)⟩

/-! ## Per-file loop accounting: claims C3, C4, C6, C9 -/

lemma processFile_counts (q : Int) (st : BatchState) (e : Entry) :
    (processFile q st e).convertedCount
      = st.convertedCount + (if fileSucceeds e then 1 else 0) ∧
    (processFile q st e).errorCount
      = st.errorCount + (if fileSucceeds e then 0 else 1) := by
  unfold processFile fileSucceeds
  cases hd : e.decodesTo <;> cases hs : e.saveOk <;> simp [hd, hs]

lemma foldl_counts (q : Int) :
    ∀ (l : List Entry) (st : BatchState),
      (l.foldl (processFile q) st).convertedCount
        = st.convertedCount + (l.filter (fun e => fileSucceeds e)).length ∧
      (l.foldl (processFile q) st).errorCount
        = st.errorCount + (l.filter (fun e => ! fileSucceeds e)).length := by
  intro l
  induction l with
  | nil => intro st; simp
  | cons e t ih =>
    intro st
    have hpc := processFile_counts q st e
    have hih := ih (processFile q st e)
    constructor
    · rw [List.foldl_cons, hih.1, hpc.1, List.filter_cons]
      by_cases h : fileSucceeds e <;> (simp [h]; try omega)
    · rw [List.foldl_cons, hih.2, hpc.2, List.filter_cons]
      by_cases h : fileSucceeds e <;> (simp [h]; try omega)

lemma length_filter_add_not {α : Type} (p : α → Bool) (l : List α) :
    (l.filter p).length + (l.filter (fun a => ! p a)).length = l.length := by
  induction l with
  | nil => rfl
  | cons a t ih => by_cases h : p a <;> simp [List.filter_cons, h] <;> omega

lemma convert_counts (fs : FileSys) (q : Int) (h : fs.inputExists = true) :
    (convert fs q).convertedCount
      = ((discover fs.entries).filter (fun e => fileSucceeds e)).length ∧
    (convert fs q).errorCount
      = ((discover fs.entries).filter (fun e => ! fileSucceeds e)).length := by
  unfold convert
  rw [if_neg (by rw [h]; simp)]
  by_cases he : (discover fs.entries).isEmpty
  · have hnil : discover fs.entries = [] := by rwa [List.isEmpty_iff] at he
    simp [he, hnil]
  · rw [if_neg he]
    have hf := foldl_counts q (discover fs.entries)
      { convertedCount := 0, errorCount := 0, outFiles := fs.outFiles }
    unfold batchRun
    refine ⟨?_, ?_⟩
    · rw [hf.1]
      simp
    · rw [hf.2]
      simp

/-- Claim C3: with an existing input directory, each discovered file's
outcome depends only on that file: the converted tally counts exactly
the files whose own pipeline succeeds and the error tally counts exactly
the files whose own pipeline fails, each failure contributing exactly 1;
hence converted plus errors equals the number of discovered files, and a
batch of N discovered files with exactly one failing file yields N-1
conversions and 1 error. -/
theorem c3_per_file_isolation (fs : FileSys) (q : Int) (h : fs.inputExists = true) :
    (convert fs q).convertedCount
      = ((discover fs.entries).filter (fun e => fileSucceeds e)).length ∧
    (convert fs q).errorCount
      = ((discover fs.entries).filter (fun e => ! fileSucceeds e)).length ∧
    (convert fs q).convertedCount + (convert fs q).errorCount
      = (discover fs.entries).length ∧
    (((discover fs.entries).filter (fun e => ! fileSucceeds e)).length = 1 →
      (convert fs q).convertedCount = (discover fs.entries).length - 1 ∧
      (convert fs q).errorCount = 1) := by
  have hc := convert_counts fs q h
  have hsum := length_filter_add_not (fun e => fileSucceeds e) (discover fs.entries)
  refine ⟨hc.1, hc.2, ?_, ?_⟩
  · rw [hc.1, hc.2]
    exact hsum
  · intro h1
    rw [hc.1, hc.2, h1]
    rw [h1] at hsum
    omega

/-- Witness for claim C3: a concrete batch of two discovered files, one
of which fails to decode, yields 1 conversion, 1 error, and totals that
sum to the discovery count. -/
theorem c3_witness :
    (convert ⟨true, [⟨"a.tif".data, some exRGB, true⟩, ⟨"bad.tif".data, none, true⟩],
        [], false⟩ 95).convertedCount
      + (convert ⟨true, [⟨"a.tif".data, some exRGB, true⟩, ⟨"bad.tif".data, none, true⟩],
        [], false⟩ 95).errorCount
      = (discover [⟨"a.tif".data, some exRGB, true⟩, ⟨"bad.tif".data, none, true⟩]).length ∧
    (convert ⟨true, [⟨"a.tif".data, some exRGB, true⟩, ⟨"bad.tif".data, none, true⟩],
        [], false⟩ 95).errorCount = 1 :=
  ⟨(c3_per_file_isolation _ 95 rfl).2.2.1,
   ((c3_per_file_isolation ⟨true, [⟨"a.tif".data, some exRGB, true⟩,
      ⟨"bad.tif".data, none, true⟩], [], false⟩ 95 rfl).2.2.2 (by decide)).2⟩

/-- Claim C4: when the input directory does not exist, the conversion
fails fast: the run is fatal, the reported converted and error tallies
are zero, and the filesystem is completely untouched (no output
directory created, no file read or written). -/
theorem c4_missing_input_noop (fs : FileSys) (q : Int) (h : fs.inputExists = false) :
    convert fs q
      = { fatal := true, convertedCount := 0, errorCount := 0, fs := fs } := by
  unfold convert
  rw [if_pos h]

/-- Witness for claim C4 at a concrete filesystem without the input
directory. -/
theorem c4_witness :
    convert ⟨false, [⟨"a.tif".data, some exRGB, true⟩], [], false⟩ 95
      = { fatal := true, convertedCount := 0, errorCount := 0,
          fs := ⟨false, [⟨"a.tif".data, some exRGB, true⟩], [], false⟩ } :=
  c4_missing_input_noop _ 95 rfl

/-- Claim C6: when the save of a single file fails, the per-file step
leaves the output directory exactly as it was — no partial or truncated
destination file exists afterwards — and records exactly one error and
no conversion. -/
theorem c6_failed_encode_no_output (q : Int) (st : BatchState) (e : Entry)
    (h : e.saveOk = false) :
    (processFile q st e).outFiles = st.outFiles ∧
    (processFile q st e).convertedCount = st.convertedCount ∧
    (processFile q st e).errorCount = st.errorCount + 1 := by
  unfold processFile
  cases hd : e.decodesTo <;> simp [hd, h]

/-- Witness for claim C6: a concrete file whose save fails writes
nothing into an initially empty output directory. -/
theorem c6_witness :
    (processFile 95 ⟨0, 0, []⟩ ⟨"a.tif".data, some exRGB, false⟩).outFiles = [] ∧
    (processFile 95 ⟨0, 0, []⟩ ⟨"a.tif".data, some exRGB, false⟩).errorCount = 1 :=
  ⟨(c6_failed_encode_no_output 95 ⟨0, 0, []⟩ _ rfl).1,
   (c6_failed_encode_no_output 95 ⟨0, 0, []⟩ ⟨"a.tif".data, some exRGB, false⟩ rfl).2.2⟩

/-- Claim C9: with an existing input directory in which discovery finds
no matching file, the run reports zero conversions and zero errors and
writes nothing; the only side effect is the creation of the output
directory, which happens before enumeration. -/
theorem c9_empty_discovery (fs : FileSys) (q : Int) (h1 : fs.inputExists = true)
    (h2 : discover fs.entries = []) :
    convert fs q
      = { fatal := false, convertedCount := 0, errorCount := 0,
          fs := { fs with outDirExists := true } } := by
  unfold convert
  rw [if_neg (by rw [h1]; simp)]
  simp [h2]

/-- Witness for claim C9 at a concrete input directory holding only a
non-TIFF file. -/
theorem c9_witness :
    convert ⟨true, [⟨"notes.txt".data, none, true⟩], [], false⟩ 95
      = { fatal := false, convertedCount := 0, errorCount := 0,
          fs := ⟨true, [⟨"notes.txt".data, none, true⟩], [], true⟩ } :=
  c9_empty_discovery _ 95 rfl (by decide)

/-! ## Discovery: claims C5 and C10 -/

lemma discover_eq (entries : List Entry) :
    discover entries
      = globTiff entries ".tif".data ++ globTiff entries ".tiff".data
        ++ globTiff entries ".TIF".data ++ globTiff entries ".TIFF".data := rfl

lemma mem_globTiff {entries : List Entry} {e : Entry} {ext : List Char} :
    e ∈ globTiff entries ext ↔ e ∈ entries ∧ ext <:+ e.name := by
  unfold globTiff
  rw [List.mem_filter, decide_eq_true_iff]

/-- Claim C5: a file is discovered iff it lies directly inside the input
directory and its name ends with one of the four case-sensitive suffixes
.tif, .tiff, .TIF, .TIFF; the four patterns are scanned in that fixed
sequence and their results concatenated; a mixed-case name such as
photo.Tif matches none of the four suffixes and so is never
discovered. -/
theorem c5_discovery_iff (entries : List Entry) (e : Entry) :
    discover entries
      = globTiff entries ".tif".data ++ globTiff entries ".tiff".data
        ++ globTiff entries ".TIF".data ++ globTiff entries ".TIFF".data ∧
    (e ∈ discover entries ↔ e ∈ entries ∧ ∃ ext ∈ tiffExtensions, ext <:+ e.name) ∧
    (∀ ext ∈ tiffExtensions, ¬ ext <:+ "photo.Tif".data) := by
  refine ⟨discover_eq entries, ?_, by decide⟩
  rw [discover_eq]
  simp only [List.mem_append, mem_globTiff, tiffExtensions, List.mem_cons,
    List.not_mem_nil, or_false, List.mem_singleton]
  constructor
  · rintro (((⟨he, hs⟩ | ⟨he, hs⟩) | ⟨he, hs⟩) | ⟨he, hs⟩)
    · exact ⟨he, _, Or.inl rfl, hs⟩
    · exact ⟨he, _, Or.inr (Or.inl rfl), hs⟩
    · exact ⟨he, _, Or.inr (Or.inr (Or.inl rfl)), hs⟩
    · exact ⟨he, _, Or.inr (Or.inr (Or.inr rfl)), hs⟩
  · rintro ⟨he, ext, (rfl | rfl | rfl | rfl), hs⟩
    · exact Or.inl (Or.inl (Or.inl ⟨he, hs⟩))
    · exact Or.inl (Or.inl (Or.inr ⟨he, hs⟩))
    · exact Or.inl (Or.inr ⟨he, hs⟩)
    · exact Or.inr ⟨he, hs⟩

/-- Witness for claim C5: in a concrete directory, the lower-case and
upper-case TIFF names are discovered, via the membership equivalence. -/
theorem c5_witness :
    (⟨"a.tif".data, none, true⟩ : Entry)
      ∈ discover [⟨"a.tif".data, none, true⟩, ⟨"b.Tif".data, none, true⟩] :=
  (c5_discovery_iff [⟨"a.tif".data, none, true⟩, ⟨"b.Tif".data, none, true⟩]
      ⟨"a.tif".data, none, true⟩).2.1.mpr
    ⟨by decide, ".tif".data, by decide, by decide⟩

lemma tiff_ext_unique (n : List Char) :
    ∀ e1 ∈ tiffExtensions, ∀ e2 ∈ tiffExtensions,
      e1 <:+ n → e2 <:+ n → e1 = e2 := by
  intro e1 h1 e2 h2 hs1 hs2
  rcases List.suffix_or_suffix_of_suffix hs1 hs2 with h | h <;>
    (simp only [tiffExtensions, List.mem_cons, List.not_mem_nil, or_false,
       List.mem_singleton] at h1 h2;
     rcases h1 with rfl | rfl | rfl | rfl <;> rcases h2 with rfl | rfl | rfl | rfl <;>
       revert h <;> decide)

lemma globTiff_disjoint (entries : List Entry) (e1 e2 : List Char)
    (h1 : e1 ∈ tiffExtensions) (h2 : e2 ∈ tiffExtensions) (hne : e1 ≠ e2) :
    (globTiff entries e1).Disjoint (globTiff entries e2) := by
  intro a ha1 ha2
  rw [mem_globTiff] at ha1 ha2
  exact hne (tiff_ext_unique a.name e1 h1 e2 h2 ha1.2 ha2.2)

lemma count_globTiff_pos {entries : List Entry} (h : entries.Nodup) {e : Entry}
    (he : e ∈ entries) {ext : List Char} (hs : ext <:+ e.name) :
    (globTiff entries ext).count e = 1 := by
  unfold globTiff
  rw [List.count_filter (by rw [decide_eq_true_iff]; exact hs)]
  exact List.count_eq_one_of_mem h he

lemma count_globTiff_neg (entries : List Entry) {e : Entry} {ext : List Char}
    (hs : ¬ ext <:+ e.name) : (globTiff entries ext).count e = 0 := by
  rw [List.count_eq_zero]
  intro hmem
  exact hs (mem_globTiff.mp hmem).2

lemma not_suffix_of_other {n : List Char} {e1 e2 : List Char}
    (h1 : e1 ∈ tiffExtensions) (h2 : e2 ∈ tiffExtensions) (hne : e1 ≠ e2)
    (hs : e1 <:+ n) : ¬ e2 <:+ n :=
  fun hc => hne (tiff_ext_unique n e1 h1 e2 h2 hs hc)

lemma nodup_discover {entries : List Entry} (h : entries.Nodup) :
    (discover entries).Nodup := by
  rw [discover_eq]
  have hn : ∀ ext : List Char, (globTiff entries ext).Nodup :=
    fun ext => h.filter _
  have hd12 := globTiff_disjoint entries ".tif".data ".tiff".data
    (by decide) (by decide) (by decide)
  have hd13 := globTiff_disjoint entries ".tif".data ".TIF".data
    (by decide) (by decide) (by decide)
  have hd14 := globTiff_disjoint entries ".tif".data ".TIFF".data
    (by decide) (by decide) (by decide)
  have hd23 := globTiff_disjoint entries ".tiff".data ".TIF".data
    (by decide) (by decide) (by decide)
  have hd24 := globTiff_disjoint entries ".tiff".data ".TIFF".data
    (by decide) (by decide) (by decide)
  have hd34 := globTiff_disjoint entries ".TIF".data ".TIFF".data
    (by decide) (by decide) (by decide)
  refine List.Nodup.append (List.Nodup.append (List.Nodup.append (hn _) (hn _) hd12)
    (hn _) ?_) (hn _) ?_
  · rw [List.disjoint_append_left]
    exact ⟨hd13, hd23⟩
  · rw [List.disjoint_append_left, List.disjoint_append_left]
    exact ⟨⟨hd14, hd24⟩, hd34⟩

/-- Claim C10: the four suffix patterns are pairwise exclusive — no name
ends with two distinct recognized suffixes — so with distinct directory
entries the concatenated discovery list has no duplicate and every
matching source file appears in it (and is processed and counted)
exactly once. -/
theorem c10_patterns_exclusive (n : List Char) (entries : List Entry)
    (h : entries.Nodup) :
    (∀ e1 ∈ tiffExtensions, ∀ e2 ∈ tiffExtensions,
      e1 <:+ n → e2 <:+ n → e1 = e2) ∧
    (discover entries).Nodup ∧
    (∀ e ∈ entries, (∃ ext ∈ tiffExtensions, ext <:+ e.name) →
      (discover entries).count e = 1) := by
  refine ⟨tiff_ext_unique n, nodup_discover h, ?_⟩
  rintro e he ⟨ext, hm, hs⟩
  rw [discover_eq, List.count_append, List.count_append, List.count_append]
  have hmm := hm
  simp only [tiffExtensions, List.mem_cons, List.not_mem_nil, or_false,
    List.mem_singleton] at hmm
  rcases hmm with rfl | rfl | rfl | rfl
  · rw [count_globTiff_pos h he hs,
      count_globTiff_neg entries (not_suffix_of_other hm (by decide) (by decide) hs),
      count_globTiff_neg entries (not_suffix_of_other hm (by decide) (by decide) hs),
      count_globTiff_neg entries (not_suffix_of_other hm (by decide) (by decide) hs)]
  · rw [count_globTiff_neg entries (not_suffix_of_other hm (by decide) (by decide) hs),
      count_globTiff_pos h he hs,
      count_globTiff_neg entries (not_suffix_of_other hm (by decide) (by decide) hs),
      count_globTiff_neg entries (not_suffix_of_other hm (by decide) (by decide) hs)]
  · rw [count_globTiff_neg entries (not_suffix_of_other hm (by decide) (by decide) hs),
      count_globTiff_neg entries (not_suffix_of_other hm (by decide) (by decide) hs),
      count_globTiff_pos h he hs,
      count_globTiff_neg entries (not_suffix_of_other hm (by decide) (by decide) hs)]
  · rw [count_globTiff_neg entries (not_suffix_of_other hm (by decide) (by decide) hs),
      count_globTiff_neg entries (not_suffix_of_other hm (by decide) (by decide) hs),
      count_globTiff_neg entries (not_suffix_of_other hm (by decide) (by decide) hs),
      count_globTiff_pos h he hs]

/-- Witness for claim C10: a concrete duplicate-free directory yields a
duplicate-free discovery list in which a matching file appears exactly
once. -/
theorem c10_witness :
    (discover [⟨"a.tif".data, none, true⟩, ⟨"b.TIFF".data, none, true⟩]).Nodup ∧
    (discover [⟨"a.tif".data, none, true⟩, ⟨"b.TIFF".data, none, true⟩]).count
      ⟨"a.tif".data, none, true⟩ = 1 := by
  have h := c10_patterns_exclusive []
    [⟨"a.tif".data, none, true⟩, ⟨"b.TIFF".data, none, true⟩] (by decide)
  exact ⟨h.2.1, h.2.2 ⟨"a.tif".data, none, true⟩ (by decide)
    ⟨".tif".data, by decide, by decide⟩⟩

/-! ## Frame effect: claim C7 -/

lemma destName_jpg (n : List Char) : ".jpg".data <:+ destName n :=
  List.suffix_append (stem n) ".jpg".data

lemma jpg_not_tiff {n : List Char} (hj : ".jpg".data <:+ n) :
    ∀ ext ∈ tiffExtensions, ¬ ext <:+ n := by
  intro ext hext hsuf
  rcases List.suffix_or_suffix_of_suffix hj hsuf with h | h <;>
    (simp only [tiffExtensions, List.mem_cons, List.not_mem_nil, or_false,
       List.mem_singleton] at hext;
     rcases hext with rfl | rfl | rfl | rfl <;> revert h <;> decide)

lemma processFile_outFiles_mem (q : Int) (st : BatchState) (e : Entry) :
    ∀ kv ∈ (processFile q st e).outFiles,
      kv ∈ st.outFiles ∨ kv.1 = destName e.name := by
  intro kv hkv
  unfold processFile at hkv
  cases hd : e.decodesTo with
  | none =>
    rw [hd] at hkv
    exact Or.inl hkv
  | some img =>
    simp only [hd] at hkv
    by_cases hs : e.saveOk
    · rw [if_pos hs] at hkv
      simp only [writeOut, List.mem_append, List.mem_filter,
        List.mem_singleton] at hkv
      rcases hkv with ⟨hmem, _⟩ | rfl
      · exact Or.inl hmem
      · exact Or.inr rfl
    · rw [if_neg hs] at hkv
      exact Or.inl hkv

lemma foldl_outFiles_mem (q : Int) :
    ∀ (l : List Entry) (st : BatchState),
      ∀ kv ∈ (l.foldl (processFile q) st).outFiles,
        kv ∈ st.outFiles ∨ ∃ e ∈ l, kv.1 = destName e.name := by
  intro l
  induction l with
  | nil =>
    intro st kv hkv
    exact Or.inl hkv
  | cons a t ih =>
    intro st kv hkv
    rw [List.foldl_cons] at hkv
    rcases ih (processFile q st a) kv hkv with hmem | ⟨e, he, hname⟩
    · rcases processFile_outFiles_mem q st a kv hmem with hmem2 | hname
      · exact Or.inl hmem2
      · exact Or.inr ⟨a, List.mem_cons_self a t, hname⟩
    · exact Or.inr ⟨e, List.mem_cons_of_mem a he, hname⟩

/-- Claim C7: a run never touches the input directory — its existence
flag and its entries (the source TIFF files together with their
contents) are unchanged — and every file in the output directory after
the run either was already there or is a newly written file whose name
ends in .jpg and therefore ends in none of the TIFF suffixes; the only
other effect is creating the output directory. -/
theorem c7_frame_effect (fs : FileSys) (q : Int) :
    (convert fs q).fs.inputExists = fs.inputExists ∧
    (convert fs q).fs.entries = fs.entries ∧
    (∀ kv ∈ (convert fs q).fs.outFiles,
      kv ∈ fs.outFiles ∨
        (".jpg".data <:+ kv.1 ∧ ∀ ext ∈ tiffExtensions, ¬ ext <:+ kv.1)) ∧
    ((convert fs q).fs.outDirExists = fs.outDirExists ∨
      (convert fs q).fs.outDirExists = true) := by
  unfold convert
  by_cases h : fs.inputExists = false
  · rw [if_pos h]
    exact ⟨rfl, rfl, fun kv hkv => Or.inl hkv, Or.inl rfl⟩
  · rw [if_neg h]
    by_cases he : (discover fs.entries).isEmpty
    · rw [if_pos he]
      exact ⟨rfl, rfl, fun kv hkv => Or.inl hkv, Or.inr rfl⟩
    · rw [if_neg he]
      refine ⟨rfl, rfl, ?_, Or.inr rfl⟩
      intro kv hkv
      rcases foldl_outFiles_mem q (discover fs.entries)
        { convertedCount := 0, errorCount := 0, outFiles := fs.outFiles } kv hkv
        with hmem | ⟨e, _, hname⟩
      · exact Or.inl hmem
      · right
        rw [hname]
        exact ⟨destName_jpg e.name, jpg_not_tiff (destName_jpg e.name)⟩

/-- Witness for claim C7 at a concrete run over one TIFF file: the input
entries are unchanged and the single written output name carries no TIFF
suffix. -/
theorem c7_witness :
    (convert ⟨true, [⟨"a.tif".data, some exRGB, true⟩], [], false⟩ 95).fs.entries
      = [⟨"a.tif".data, some exRGB, true⟩] ∧
    (∀ kv ∈ (convert ⟨true, [⟨"a.tif".data, some exRGB, true⟩], [], false⟩ 95).fs.outFiles,
      kv ∈ ([] : List (List Char × JpegFile)) ∨
        (".jpg".data <:+ kv.1 ∧ ∀ ext ∈ tiffExtensions, ¬ ext <:+ kv.1)) :=
  ⟨(c7_frame_effect ⟨true, [⟨"a.tif".data, some exRGB, true⟩], [], false⟩ 95).2.1,
   (c7_frame_effect ⟨true, [⟨"a.tif".data, some exRGB, true⟩], [], false⟩ 95).2.2.1⟩

/-! ## Quality-argument validation: claim C8 -/

/-- Claim C8: the quality option is validated at argument-parsing time:
every integer in 1..100 is accepted unchanged, every out-of-range
integer and every non-integer token is rejected, the default when
omitted is 95, and a rejected quality stops the program before the
conversion is ever invoked, so no directory or file is touched. -/
theorem c8_quality_validation (q : Int) (fs : FileSys) (tok : Option Int) :
    (1 ≤ q ∧ q ≤ 100 → validateQuality (some q) = some q) ∧
    ((q < 1 ∨ 100 < q) → validateQuality (some q) = none) ∧
    validateQuality none = none ∧
    qualityOrDefault none = some 95 ∧
    (validateQuality tok = none → mainRun fs (some tok) = none) := by
  refine ⟨?_, ?_, rfl, rfl, ?_⟩
  · intro hq
    simp only [validateQuality]
    rw [if_pos ⟨hq.1, by omega⟩]
  · intro hq
    simp only [validateQuality]
    rw [if_neg (by omega)]
  · intro htok
    simp only [mainRun, qualityOrDefault, htok]

/-- Witness for claim C8: quality 100 is accepted, quality 0 and 101 are
rejected, and an invalid quality prevents any run. -/
theorem c8_witness :
    validateQuality (some 100) = some 100 ∧
    validateQuality (some 0) = none ∧
    validateQuality (some 101) = none ∧
    mainRun ⟨true, [⟨"a.tif".data, some exRGB, true⟩], [], false⟩ (some (some 0)) = none :=
  ⟨(c8_quality_validation 100 ⟨true, [], [], false⟩ none).1 (by omega),
   (c8_quality_validation 0 ⟨true, [], [], false⟩ none).2.1 (by omega),
   (c8_quality_validation 101 ⟨true, [], [], false⟩ none).2.1 (by omega),
   (c8_quality_validation 0 ⟨true, [⟨"a.tif".data, some exRGB, true⟩], [], false⟩
      (some 0)).2.2.2.2 (by decide)⟩

end BatchImageConverter
